import Mathlib

/-!
Shallow embedding of `src/action.py` (Accsyn send Action v1.1,
`AccsynSendAction`), verifying the spec's claims about the transfer
orchestration pipeline.

Modelling conventions:

* Python strings are modelled as `List Char` (`Str`), so that the
  case-insensitive substring search (`str.lower().find(...)`), slicing
  (`p_raw[idx:]`), splitting and stripping are all plain structural
  functions on character lists, one character per Python character.
* The ftrack / accsyn sessions are external collaborators.  Their query
  results are supplied by a `World` record of oracle functions (entity
  expansion queries, location lookup, project lookup, terminal accsyn job
  status).  The `ComponentLocation` table, which the action itself
  mutates, is modelled concretely as a list of records (`DB`), queried in
  stored order exactly like `session.query(...).first()`.
* The worker body `AccsynSendAction.run` is embedded as a pure function
  producing an ordered trace of its externally visible effects
  (`Event`), the final `ComponentLocation` table, and the final status
  written to the ftrack job in the `finally` block.  Exceptions raised by
  `.one()` lookups are modelled as the corresponding `Option` being
  `none`, and are routed to the top-level `except` branch exactly as in
  the source.  The unbounded polling loop of lines 462-480 is modelled by
  its exit point: the `World` supplies the terminal status
  (`done`/`failed`/`aborted`) at which the loop breaks; intermediate
  polls only emit log lines and are not claim-relevant.
-/

/-- Python strings, one `Char` per character. -/
abbrev Str := List Char

/-- A `ComponentLocation` row of the component's `component_locations`
collection, as seen by the path loop of lines 350-363: the location's
name and the outcome of `location.get_filesystem_path(component)` —
`none` models the lookup raising an exception, `some s` models it
returning the string `s` (a Python `None` return behaves exactly like
`""` under `len(p_raw or '')`, so it is modelled as `some []`). -/
structure LocRecord where
  locName : Str
  pathResult : Option Str
deriving DecidableEq, Repr

/-- An ftrack `Component` as used by `run`: its id, name, the project id
reachable through `version.asset.parent.project_id` (line 336), and its
ordered `component_locations` records. -/
structure Component where
  id : Str
  name : Str
  projectId : Str
  locations : List LocRecord
deriving DecidableEq, Repr

/-- One element of the launch event's `selection` (lines 287-328):
`entityType` (`"show"`, `"list"`, or a generic type) and `entityId`. -/
structure SelectionItem where
  entityType : Str
  entityId : Str
deriving DecidableEq, Repr

/-- The user-supplied form values of the launch event (lines 104-109,
239-242, 386). -/
structure Values where
  source_location : Str
  destination_location : Str
  additional_files : Str
deriving DecidableEq, Repr

/-- An ftrack `Location` entity (only `id` and `name` are used). -/
structure Location where
  id : Str
  name : Str
deriving DecidableEq, Repr

/-- A row of the ftrack `ComponentLocation` table: the component id, the
location id and the `resource_identifier`. -/
structure CLRec where
  componentId : Str
  locationId : Str
  resource : Str
deriving DecidableEq, Repr

/-- The `ComponentLocation` table, in stored order;
`session.query(...).first()` is `List.find?` on it. -/
abbrev DB := List CLRec

/-- The terminal statuses at which the polling loop of lines 462-480
breaks: `['done','failed','aborted']`. -/
inductive TermStatus where
  | done
  | failed
  | aborted
deriving DecidableEq, Repr

/-- The external collaborators of one run: the ftrack entity-expansion
queries (lines 290-328), the `Location where name is ...` lookup (lines
266-278), the `Project where id=...` lookup (lines 338-340), and the
terminal status reported by the accsyn job the polling loop waits on. -/
structure World where
  queryComponents : SelectionItem → List Component
  findLocation : Str → Option Location
  findProject : Str → Option Str
  accsynStatus : TermStatus

/-- The externally visible effects of one worker run, in order. -/
inductive Event where
  /-- `session.create('Job', ...)` of lines 247-258. -/
  | createTrackingJob
  /-- `accsyn_session.create('Job', accsyn_job_data)` of line 442,
  carrying the job's `(source, destination)` task pairs. -/
  | submit (tasks : List (Str × Str))
  /-- `session.delete(cl)` of line 457 (stale-destination cleanup pass). -/
  | deletePre (componentId locationId : Str)
  /-- `session.delete(cl)` of line 498 (post-transfer pass). -/
  | deletePost (componentId locationId : Str)
  /-- `session.create('ComponentLocation', ...)` of lines 499-505. -/
  | createCL (componentId locationId resource : Str)
  /-- `web_message(...)` notification to the invoking user. -/
  | webMessage (message : Str)
  /-- `job['status'] = job_final_status` of line 522 (`finally` block). -/
  | setStatus (status : Str)
deriving DecidableEq, Repr

/-- The observable outcome of one worker run: effect trace, final
`ComponentLocation` table, and the status written in the `finally`
block. -/
structure RunResult where
  trace : List Event
  db : DB
  finalStatus : Str
deriving DecidableEq, Repr

/-- The literal `self.excluded_locations` of lines 50-56. -/
def excludedLocations : List Str :=
  ["ftrack.origin".toList, "ftrack.connect".toList, "ftrack.unmanaged".toList,
   "ftrack.server".toList, "ftrack.review".toList]

def doneS : Str := "done".toList

def failedS : Str := "failed".toList

/-- Per-character lowering, modelling `str.lower()` on the ASCII
identifiers and paths the action works with. -/
def lowerStr (s : Str) : Str := s.map Char.toLower

/-- Python `haystack.find(needle)` (lowest index at which `needle`
occurs, or none), by scanning left to right. -/
def pyFind (hay needle : Str) : Option Nat :=
  if needle.isPrefixOf hay then some 0
  else
    match hay with
    | [] => none
    | _ :: t => (pyFind t needle).map (· + 1)

/-- Lines 374-382 / 389-391: `idx = p_raw.lower().find(project['name'].lower())`;
if `0 <= idx` the relative path is `p_raw[idx:]`, otherwise the path is
rejected. -/
def projectStrip (projName praw : Str) : Option Str :=
  match pyFind (lowerStr praw) (lowerStr projName) with
  | some idx => some (praw.drop idx)
  | none => none

/-- The location scan of lines 349-363, threading the mutable `p_raw`:
excluded locations are skipped, a lookup exception leaves `p_raw`
untouched, a non-empty result breaks the loop, an empty result is kept
and the scan continues. -/
def scanLocations (excluded : List Str) : List LocRecord → Option Str → Option Str
  | [], praw => praw
  | d :: rest, praw =>
    if excluded.contains d.locName then scanLocations excluded rest praw
    else
      match d.pathResult with
      | none => scanLocations excluded rest praw
      | some r => if 0 < r.length then some r else scanLocations excluded rest (some r)

/-- Lines 348-384 for a single component: scan its locations for a raw
path, reject it when `len(p_raw or '') == 0`, then strip everything
before the project-code token; returns `(p, p_raw)` on success. -/
def resolveComponent (excluded : List Str) (projName : Str) (c : Component) :
    Option (Str × Str) :=
  match scanLocations excluded c.locations none with
  | none => none
  | some praw =>
    if praw.length == 0 then none
    else
      match projectStrip projName praw with
      | some p => some (p, praw)
      | none => none

/-- A `(component, p, p_raw)` triple of `components_and_paths`;
`component` is `none` for manually entered additional files. -/
abbrev RItem := Option Component × Str × Str

/-- The component loop of lines 348-384 building `components_and_paths`. -/
def evalPaths (excluded : List Str) (projName : Str) : List Component → List RItem
  | [] => []
  | c :: cs =>
    match resolveComponent excluded projName c with
    | some pp => (some c, pp.1, pp.2) :: evalPaths excluded projName cs
    | none => evalPaths excluded projName cs

/-- Python whitespace, for `str.strip()`. -/
def isPySpace (c : Char) : Bool :=
  c == ' ' || c == '\t' || c == '\n' || c == '\x0b' || c == '\x0c' || c == '\r'

/-- Python `str.strip()`. -/
def pyStrip (s : Str) : Str :=
  ((s.dropWhile isPySpace).reverse.dropWhile isPySpace).reverse

/-- Python `str.split(sep)` for a single-character separator
(`''.split(c) = ['']`, separators delimit possibly empty fields). -/
def pySplitAux (sep : Char) : Str → Str → List Str
  | [], acc => [acc.reverse]
  | c :: rest, acc =>
    if c == sep then acc.reverse :: pySplitAux sep rest []
    else pySplitAux sep rest (c :: acc)

def pySplit (sep : Char) (s : Str) : List Str := pySplitAux sep s []

/-- The per-line body of the additional-files loop (lines 387-395): empty
lines and lines without the project-code token are dropped, the rest
become items with a `none` component. -/
def additionalLineItems (projName : Str) : List Str → List RItem
  | [] => []
  | p :: rest =>
    if 0 < p.length then
      match projectStrip projName p with
      | some rel => (none, rel, p) :: additionalLineItems projName rest
      | none => additionalLineItems projName rest
    else additionalLineItems projName rest

/-- Lines 386-395: the additional-files block runs only when the stripped
text is non-empty, and splits the raw text on newlines. -/
def additionalItems (projName : Str) (text : Str) : List RItem :=
  if 0 < (pyStrip text).length then additionalLineItems projName (pySplit '\n' text)
  else []

/-- The entity loop of lines 287-328, threading `all_components` and
`project_id` (set only for `'show'` selection items). -/
def harvestAux (w : World) : List SelectionItem → List Component × Option Str →
    List Component × Option Str
  | [], acc => acc
  | e :: es, acc =>
    harvestAux w es
      (acc.1 ++ w.queryComponents e,
       if e.entityType == "show".toList then some e.entityId else acc.2)

def harvest (w : World) (entities : List SelectionItem) : List Component × Option Str :=
  harvestAux w entities ([], none)

/-- The `ComponentLocation where component.id=... and location.id=...`
query predicate (lines 449-452, 489-493). -/
def clMatches (cid lid : Str) (r : CLRec) : Bool :=
  r.componentId == cid && r.locationId == lid

/-- Removal of the first record satisfying a predicate, the effect of
`session.delete(cl)` on the table when `cl` was obtained by `.first()`. -/
def deleteFirst (p : CLRec → Bool) : DB → DB
  | [] => []
  | r :: rs => if p r then rs else r :: deleteFirst p rs

/-- One iteration of the delete-if-found step against a single
component/destination pair (lines 449-458): query the first matching
`ComponentLocation`, delete it when present. -/
def preDeleteStep (db : DB) (cid lid : Str) : DB :=
  match db.find? (clMatches cid lid) with
  | some _ => deleteFirst (clMatches cid lid) db
  | none => db

/-- The stale-destination cleanup loop of lines 446-460 (runs right
after submission): for every item with a non-null component, delete the
first `ComponentLocation` at the destination if one exists.  Returns the
emitted delete events and the resulting table. -/
def preReconcile (destId : Str) : List RItem → DB → List Event × DB
  | [], db => ([], db)
  | (none, _, _) :: rest, db => preReconcile destId rest db
  | (some c, _, _) :: rest, db =>
    match db.find? (clMatches c.id destId) with
    | some _ =>
      let next := preReconcile destId rest (deleteFirst (clMatches c.id destId) db)
      (Event.deletePre c.id destId :: next.1, next.2)
    | none => preReconcile destId rest db

/-- The post-transfer reconciliation loop of lines 486-513 (runs only
when `job_final_status == 'done'`): for every item with a non-null
component, delete any existing destination record, then create a fresh
`ComponentLocation` at the destination with `resource_identifier = p_raw`. -/
def postReconcile (destId : Str) : List RItem → DB → List Event × DB
  | [], db => ([], db)
  | (none, _, _) :: rest, db => postReconcile destId rest db
  | (some c, _, praw) :: rest, db =>
    match db.find? (clMatches c.id destId) with
    | some _ =>
      let next :=
        postReconcile destId rest
          (deleteFirst (clMatches c.id destId) db ++ [⟨c.id, destId, praw⟩])
      (Event.deletePost c.id destId :: Event.createCL c.id destId praw :: next.1, next.2)
    | none =>
      let next := postReconcile destId rest (db ++ [⟨c.id, destId, praw⟩])
      (Event.createCL c.id destId praw :: next.1, next.2)

/-- Lines 423-430: `'site={}'.format(name)` unless the location name
already contains an `'@'`, in which case it is used verbatim. -/
def endpointParty (name : Str) : Str :=
  if name.contains '@' then name else "site=".toList ++ name

/-- The task list of `accsyn_job_data` (lines 415-436): one
`(source, destination)` pair per item, `source = party:relativePath`. -/
def mkTasks (v : Values) (items : List RItem) : List (Str × Str) :=
  items.map fun it =>
    (endpointParty v.source_location ++ ":".toList ++ it.2.1,
     endpointParty v.destination_location)

/-- Lines 439-523 from the submission onward: submit the job, run the
stale-destination cleanup, wait for the terminal accsyn status, classify
it (`aborted` leaves `job_final_status` at `'done'`, line 475), run the
post-transfer reconciliation exactly when `job_final_status == 'done'`
(line 483), and finalize the ftrack job status (lines 520-523). -/
def runSubmit (w : World) (v : Values) (dstLoc : Location) (items : List RItem)
    (db : DB) : RunResult :=
  match w.accsynStatus with
  | .done =>
    let pre := preReconcile dstLoc.id items db
    let post := postReconcile dstLoc.id items pre.2
    ⟨Event.createTrackingJob :: Event.submit (mkTasks v items) ::
        (pre.1 ++ Event.webMessage "Accsyn job finished successfully!".toList ::
          (post.1 ++ [Event.setStatus doneS])),
      post.2, doneS⟩
  | .aborted =>
    let pre := preReconcile dstLoc.id items db
    let post := postReconcile dstLoc.id items pre.2
    ⟨Event.createTrackingJob :: Event.submit (mkTasks v items) ::
        (pre.1 ++ Event.webMessage "[WARNING] Accsyn job were aborted.".toList ::
          (post.1 ++ [Event.setStatus doneS])),
      post.2, doneS⟩
  | .failed =>
    let pre := preReconcile dstLoc.id items db
    ⟨Event.createTrackingJob :: Event.submit (mkTasks v items) ::
        (pre.1 ++
          Event.webMessage "[ERROR] Accsyn job FAILED! Check Accsyn for clues!".toList ::
          [Event.setStatus failedS]),
      pre.2, failedS⟩

/-- The crash notification emitted by the top-level `except` handler of
lines 516-519 (the dynamic exception detail is abstracted). -/
def crashedMsg : Str := "[ERROR] Accsyn send CRASHED! Details: see log".toList

/-- The `error('No components found!')` notification of line 331. -/
def noComponentsMsg : Str := "[ERROR] No components found!".toList

/-- The notification of lines 398-399 (the source's message already
carries an `[ERROR]` tag, and `error` adds another). -/
def noItemsMsg : Str :=
  "[ERROR] [ERROR] No components/additional files left after extracting paths!".toList

/-- An early-failure result: the three-event trace (job creation, error
notification, finalization) with an untouched table. -/
def earlyFailure (m : Str) (db : DB) : RunResult :=
  ⟨[Event.createTrackingJob, Event.webMessage m, Event.setStatus failedS], db, failedS⟩

/-- Lines 330-523 once both locations resolved: empty harvest fails the
run before any later stage; otherwise the project is looked up (from the
`'show'` selection item when present, else from the first component),
paths are resolved, and an empty item set fails the run before
submission. -/
def runHarvested (w : World) (v : Values) (dstLoc : Location) :
    List Component × Option Str → DB → RunResult
  | ([], _), db => earlyFailure noComponentsMsg db
  | (c0 :: cs, pidOpt), db =>
    match w.findProject (pidOpt.getD c0.projectId) with
    | none => earlyFailure crashedMsg db
    | some projName =>
      match evalPaths excludedLocations projName (c0 :: cs) ++
          additionalItems projName v.additional_files with
      | [] => earlyFailure noItemsMsg db
      | it :: its => runSubmit w v dstLoc (it :: its) db

/-- The worker body `AccsynSendAction.run` (lines 192-525): create the
tracking job, resolve both locations (a failed `.one()` lookup raises
and is caught by the top-level handler, which reports a crash and lets
the `finally` block write `failed`), then continue with the harvested
components. -/
def run (w : World) (v : Values) (entities : List SelectionItem) (db : DB) : RunResult :=
  match w.findLocation v.source_location with
  | none => earlyFailure crashedMsg db
  | some _ =>
    match w.findLocation v.destination_location with
    | none => earlyFailure crashedMsg db
    | some dstLoc => runHarvested w v dstLoc (harvest w entities) db

/-- The synchronous response of `AccsynSendAction.launch`. -/
inductive LaunchOutcome where
  /-- The first (no `values`) round: the widget form is returned. -/
  | form
  /-- A `log_and_return` response `{'success': ..., 'message': ...}`. -/
  | response (success : Bool) (message : Str)
deriving DecidableEq, Repr

/-- The observable outcome of one `launch` invocation: the synchronous
response, whether the worker thread was started, and the worker's
effects (empty when no worker ran). -/
structure LaunchResult where
  outcome : LaunchOutcome
  workerStarted : Bool
  trace : List Event
  db : DB
deriving DecidableEq, Repr

/-- `AccsynSendAction.launch` (lines 97-190): with `values` present,
identical source and destination names are rejected synchronously with
`success=false` before the worker thread is started; otherwise the
worker runs and the acknowledgement is returned.  (The worker is
asynchronous in the source; its effects are composed here because the
claims only concern whether and what it executes.) -/
def launchRun (w : World) (values : Option Values) (sel : List SelectionItem)
    (db : DB) : LaunchResult :=
  match values with
  | none => ⟨.form, false, [], db⟩
  | some v =>
    if v.source_location == v.destination_location then
      ⟨.response false "Source and destination location are the same!".toList,
        false, [], db⟩
    else
      let r := run w v sel db
      ⟨.response true
          ("Component transfer of ".toList ++ (toString sel.length).toList ++
            " entities(s) initiated, check ftrack job for progress!".toList),
        true, r.trace, r.db⟩

/-- Concrete scenario data used by counterexamples and witnesses. -/
def locA : Location := ⟨"idA".toList, "studio-a".toList⟩

def locB : Location := ⟨"idB".toList, "studio-b".toList⟩

/-- A component stored at the custom location `studio-a` under a path
containing the project code `show01`. -/
def compX : Component :=
  ⟨"cX".toList, "main".toList, "proj1".toList,
   [⟨"studio-a".toList, some "share/show01/render.exr".toList⟩]⟩

def baseQuery : SelectionItem → List Component := fun _ => [compX]

def baseFind : Str → Option Location := fun n =>
  if n == "studio-a".toList then some locA
  else if n == "studio-b".toList then some locB
  else none

def baseProject : Str → Option Str := fun _ => some "show01".toList

/-- A world whose transfer job ends `done`. -/
def w1 : World := ⟨baseQuery, baseFind, baseProject, .done⟩

/-- The same world, but the transfer job ends `aborted`. -/
def w2 : World := ⟨baseQuery, baseFind, baseProject, .aborted⟩

/-- A world whose entity queries return no components. -/
def w6 : World := ⟨fun _ => [], baseFind, baseProject, .done⟩

def v1 : Values := ⟨"studio-a".toList, "studio-b".toList, "".toList⟩

def se1 : SelectionItem := ⟨"task".toList, "e1".toList⟩

def se2 : SelectionItem := ⟨"task".toList, "e2".toList⟩

def sel1 : List SelectionItem := [se1]

/-- An initial table holding a stale destination record for `compX`. -/
def db1 : DB := [⟨"cX".toList, "idB".toList, "old".toList⟩]

/-- A component whose only location record is the excluded
`ftrack.unmanaged` location, with a perfectly valid non-empty path
containing the project code. -/
def compU : Component :=
  ⟨"cU".toList, "render".toList, "proj1".toList,
   [⟨"ftrack.unmanaged".toList, some "mnt/show01/plate.exr".toList⟩]⟩

/-- The same component stored at a custom (non-excluded) location. -/
def compCustom : Component :=
  ⟨"cU".toList, "render".toList, "proj1".toList,
   [⟨"studio-custom".toList, some "mnt/show01/plate.exr".toList⟩]⟩

/-- C3: the claim states that the "unmanaged" location kind is eligible
as a path source despite being in the excluded set, and the source's own
header (line 8, "Consider 'ftrack.unmanaged' and custom locations") and
launch-form text (line 133) promise the same — but the path-resolution
loop of lines 352-353 skips every member of `excluded_locations`
unconditionally, `ftrack.unmanaged` included.  Evaluated here: a
component whose only location record is `ftrack.unmanaged` with a valid
project-code-bearing path is dropped, while the identical component at a
custom location resolves. -/
theorem c3_unmanaged_is_skipped :
    ("ftrack.unmanaged".toList ∈ excludedLocations) ∧
    resolveComponent excludedLocations "show01".toList compU = none ∧
    resolveComponent excludedLocations "show01".toList compCustom =
      some ("show01/plate.exr".toList, "mnt/show01/plate.exr".toList) := by
  refine ⟨by decide, by decide, by decide⟩

/-- Correctness of the left-to-right scan of `pyFind`: a returned index
is an occurrence, and the least one. -/
theorem pyFind_eq_some (needle : Str) :
    ∀ (hay : Str) (i : Nat), pyFind hay needle = some i →
      needle.isPrefixOf (hay.drop i) = true ∧
      ∀ j, j < i → needle.isPrefixOf (hay.drop j) = false := by
  intro hay
  induction hay with
  | nil =>
    intro i h
    unfold pyFind at h
    by_cases hp : needle.isPrefixOf [] = true
    · simp [hp] at h
      subst h
      exact ⟨hp, fun j hj => absurd hj (Nat.not_lt_zero j)⟩
    · simp [hp] at h
  | cons a t ih =>
    intro i h
    unfold pyFind at h
    by_cases hp : needle.isPrefixOf (a :: t) = true
    · simp [hp] at h
      subst h
      exact ⟨hp, fun j hj => absurd hj (Nat.not_lt_zero j)⟩
    · simp [hp] at h
      obtain ⟨i2, hi2, rfl⟩ := h
      obtain ⟨h1, h2⟩ := ih i2 hi2
      refine ⟨by rw [List.drop_succ_cons]; exact h1, ?_⟩
      intro j hj
      cases j with
      | zero => rw [List.drop_zero]; exact Bool.eq_false_iff.mpr hp
      | succ j2 =>
        rw [List.drop_succ_cons]
        exact h2 j2 (Nat.lt_of_succ_lt_succ hj)

/-- C4: for every raw path (component location path or free-text
additional-files line), when the project-code token occurs
case-insensitively the resolved relative path is exactly the suffix of
the raw path starting at the first (leftmost) such occurrence, original
casing preserved (the result is literally a suffix of the raw input);
when the token does not occur the value is rejected — the component is
skipped and the line is ignored — without affecting the remaining
components or lines. -/
theorem c4_relative_path_resolution (projName praw : Str) :
    (∀ idx, pyFind (lowerStr praw) (lowerStr projName) = some idx →
      projectStrip projName praw = some (praw.drop idx) ∧
      (lowerStr projName).isPrefixOf ((lowerStr praw).drop idx) = true ∧
      (∀ j, j < idx → (lowerStr projName).isPrefixOf ((lowerStr praw).drop j) = false) ∧
      ∃ pre, pre ++ praw.drop idx = praw) ∧
    (pyFind (lowerStr praw) (lowerStr projName) = none →
      projectStrip projName praw = none) ∧
    (∀ (excluded : List Str) (c : Component) (cs : List Component),
      resolveComponent excluded projName c = none →
      evalPaths excluded projName (c :: cs) = evalPaths excluded projName cs) ∧
    (∀ (p : Str) (rest : List Str), projectStrip projName p = none →
      additionalLineItems projName (p :: rest) = additionalLineItems projName rest) := by
  refine ⟨?_, ?_, ?_, ?_⟩
  · intro idx h
    obtain ⟨h1, h2⟩ := pyFind_eq_some (lowerStr projName) (lowerStr praw) idx h
    exact ⟨by simp [projectStrip, h], h1, h2, praw.take idx, List.take_append_drop idx praw⟩
  · intro h
    simp [projectStrip, h]
  · intro excluded c cs h
    simp [evalPaths, h]
  · intro p rest h
    by_cases hl : 0 < p.length
    · simp [additionalLineItems, hl, h]
    · simp [additionalLineItems, hl]

/-- A component with no location records at all: unresolvable. -/
def compNoPath : Component := ⟨"cN".toList, "n".toList, "proj1".toList, []⟩

/-- Witness for C4: concrete evaluations of each case of
`c4_relative_path_resolution`. -/
theorem c4_relative_path_resolution_witness :
    projectStrip "Show01".toList "X/Ab/sHoW01/beauty.exr".toList =
      some "sHoW01/beauty.exr".toList ∧
    projectStrip "Show01".toList "no/token/here".toList = none ∧
    evalPaths excludedLocations "Show01".toList [compNoPath] = [] ∧
    additionalLineItems "Show01".toList ["zzz".toList] = [] := by
  refine ⟨?_, ?_, ?_, ?_⟩
  · have h :=
      ((c4_relative_path_resolution "Show01".toList "X/Ab/sHoW01/beauty.exr".toList).1
        5 (by decide)).1
    exact h.trans (by decide)
  · exact (c4_relative_path_resolution "Show01".toList "no/token/here".toList).2.1 (by decide)
  · exact (c4_relative_path_resolution "Show01".toList []).2.2.1
      excludedLocations compNoPath [] (by decide)
  · exact (c4_relative_path_resolution "Show01".toList []).2.2.2 "zzz".toList [] (by decide)

/-- C5: a launch request whose source location name equals its
destination location name is rejected synchronously with
`success=false` (lines 111-113), the worker thread is never started, so
no effect — in particular no TrackingJobRecord creation — ever happens
and the `ComponentLocation` table is untouched. -/
theorem c5_same_location_rejected (w : World) (v : Values)
    (sel : List SelectionItem) (db : DB)
    (h : v.source_location = v.destination_location) :
    (launchRun w (some v) sel db).outcome =
      LaunchOutcome.response false
        "Source and destination location are the same!".toList ∧
    (launchRun w (some v) sel db).workerStarted = false ∧
    (launchRun w (some v) sel db).trace = [] ∧
    (launchRun w (some v) sel db).db = db := by
  simp [launchRun, h]

def v5 : Values := ⟨"studio-a".toList, "studio-a".toList, "".toList⟩

/-- Witness for C5 at a concrete request. -/
theorem c5_same_location_rejected_witness :
    (launchRun w1 (some v5) sel1 []).outcome =
      LaunchOutcome.response false
        "Source and destination location are the same!".toList ∧
    (launchRun w1 (some v5) sel1 []).workerStarted = false ∧
    (launchRun w1 (some v5) sel1 []).trace = [] ∧
    (launchRun w1 (some v5) sel1 []).db = [] :=
  c5_same_location_rejected w1 v5 sel1 [] rfl

/-- Number of `ComponentLocation` records for one component/location
pair. -/
def pairCount (db : DB) (cid lid : Str) : Nat := db.countP (clMatches cid lid)

/-- Deleting the first match removes exactly one matching record when a
match exists. -/
theorem countP_deleteFirst_self (p : CLRec → Bool) :
    ∀ db : DB, (∃ r ∈ db, p r = true) →
      (deleteFirst p db).countP p = db.countP p - 1 := by
  intro db
  induction db with
  | nil => rintro ⟨r, hr, _⟩; cases hr
  | cons a t ih =>
    rintro ⟨r, hr, hp⟩
    by_cases ha : p a = true
    · simp [deleteFirst, ha, List.countP_cons]
    · rw [List.mem_cons] at hr
      rcases hr with rfl | hr
      · exact absurd hp ha
      · have hrec := ih ⟨r, hr, hp⟩
        simp [deleteFirst, ha, List.countP_cons, hrec]

/-- The delete-if-found step removes one record of the pair (or nothing
when none is present). -/
theorem pairCount_preDeleteStep (db : DB) (cid lid : Str) :
    pairCount (preDeleteStep db cid lid) cid lid = pairCount db cid lid - 1 := by
  unfold preDeleteStep
  cases hf : db.find? (clMatches cid lid) with
  | none =>
    have h0 : db.countP (clMatches cid lid) = 0 := by
      refine List.countP_eq_zero.mpr ?_
      intro a ha hpa
      exact (List.find?_eq_none.mp hf a ha) hpa
    simp [pairCount, h0]
  | some r =>
    exact countP_deleteFirst_self _ db
      ⟨r, List.mem_of_find?_eq_some hf, List.find?_some hf⟩

/-- C9: running the pre-submission delete-if-found step twice in a row
against the same component/destination-location pair leaves at most one
`ComponentLocation` record for that pair.  The hypothesis is the
platform invariant that a component/location pair starts with at most
one record (ftrack's `ComponentLocation` table is keyed by component and
location). -/
theorem c9_pre_cleanup_idempotent (db : DB) (cid lid : Str)
    (h : pairCount db cid lid ≤ 1) :
    pairCount (preDeleteStep (preDeleteStep db cid lid) cid lid) cid lid ≤ 1 := by
  rw [pairCount_preDeleteStep, pairCount_preDeleteStep]
  omega

/-- Witness for C9 on a table holding one stale destination record. -/
theorem c9_pre_cleanup_idempotent_witness :
    pairCount db1 "cX".toList "idB".toList ≤ 1 ∧
    pairCount
      (preDeleteStep (preDeleteStep db1 "cX".toList "idB".toList)
        "cX".toList "idB".toList) "cX".toList "idB".toList ≤ 1 :=
  ⟨by decide, c9_pre_cleanup_idempotent db1 "cX".toList "idB".toList (by decide)⟩

/-- The component ids of the items with a non-null component. -/
def itemCompIds (items : List RItem) : List Str :=
  items.filterMap fun it => it.1.map Component.id

/-- Records a reconciliation pass over `items` may touch: destination
location and a component of some non-null item. -/
def touchedRec (destId : Str) (items : List RItem) (r : CLRec) : Bool :=
  r.locationId == destId && (itemCompIds items).contains r.componentId

/-- Deleting a first match only affects records satisfying the match
predicate. -/
theorem filter_deleteFirst (q p : CLRec → Bool)
    (himp : ∀ r, p r = true → q r = false) :
    ∀ db : DB, (deleteFirst p db).filter q = db.filter q := by
  intro db
  induction db with
  | nil => rfl
  | cons a t ih =>
    by_cases ha : p a = true
    · have hqa := himp a ha
      simp [deleteFirst, ha, List.filter_cons, hqa]
    · simp [deleteFirst, ha, List.filter_cons, ih]

/-- The pre-submission cleanup pass leaves every record outside the
touched set untouched. -/
theorem preReconcile_frame (destId : Str) (q : CLRec → Bool) :
    ∀ (items : List RItem) (db : DB),
      (∀ c p2 praw, (some c, p2, praw) ∈ items →
        ∀ r, clMatches c.id destId r = true → q r = false) →
      ((preReconcile destId items db).2).filter q = db.filter q := by
  intro items
  induction items with
  | nil => intro db _; rfl
  | cons it rest ih =>
    intro db hq
    obtain ⟨copt, p2, praw⟩ := it
    cases copt with
    | none =>
      exact ih db fun c p3 pr hm => hq c p3 pr (List.mem_cons_of_mem _ hm)
    | some c =>
      have hq1 : ∀ r, clMatches c.id destId r = true → q r = false :=
        hq c p2 praw (List.mem_cons_self _ _)
      have hqrest : ∀ c2 p3 pr, (some c2, p3, pr) ∈ rest →
          ∀ r, clMatches c2.id destId r = true → q r = false :=
        fun c2 p3 pr hm => hq c2 p3 pr (List.mem_cons_of_mem _ hm)
      cases hf : db.find? (clMatches c.id destId) with
      | some r =>
        simp only [preReconcile, hf]
        rw [ih _ hqrest, filter_deleteFirst q _ hq1]
      | none =>
        simp only [preReconcile, hf]
        exact ih db hqrest

/-- The post-transfer pass leaves every record outside the touched set
untouched (deletions hit only matching records; the created record is
itself in the touched set). -/
theorem postReconcile_frame (destId : Str) (q : CLRec → Bool) :
    ∀ (items : List RItem) (db : DB),
      (∀ c p2 praw, (some c, p2, praw) ∈ items →
        ∀ r, clMatches c.id destId r = true → q r = false) →
      ((postReconcile destId items db).2).filter q = db.filter q := by
  intro items
  induction items with
  | nil => intro db _; rfl
  | cons it rest ih =>
    intro db hq
    obtain ⟨copt, p2, praw⟩ := it
    cases copt with
    | none =>
      exact ih db fun c p3 pr hm => hq c p3 pr (List.mem_cons_of_mem _ hm)
    | some c =>
      have hq1 : ∀ r, clMatches c.id destId r = true → q r = false :=
        hq c p2 praw (List.mem_cons_self _ _)
      have hqrest : ∀ c2 p3 pr, (some c2, p3, pr) ∈ rest →
          ∀ r, clMatches c2.id destId r = true → q r = false :=
        fun c2 p3 pr hm => hq c2 p3 pr (List.mem_cons_of_mem _ hm)
      have hnew : q ⟨c.id, destId, praw⟩ = false := by
        refine hq1 _ ?_
        simp [clMatches]
      cases hf : db.find? (clMatches c.id destId) with
      | some r =>
        simp only [postReconcile, hf]
        rw [ih _ hqrest, List.filter_append, filter_deleteFirst q _ hq1]
        simp [List.filter_cons, hnew]
      | none =>
        simp only [postReconcile, hf]
        rw [ih _ hqrest, List.filter_append]
        simp [List.filter_cons, hnew]

/-- C10: both reconciliation passes only ever delete or create
`ComponentLocation` records whose location is the chosen destination and
whose component is the non-null component of an item: the sublist of
records at any other location, or for any other component, survives each
pass exactly (same records, same order, same resource identifiers); and
an item with a null component (a manually entered additional file)
causes no `ComponentLocation` operation at all. -/
theorem c10_reconciliation_frame (destId : Str) (items : List RItem) (db : DB) :
    ((preReconcile destId items db).2).filter (fun r => !touchedRec destId items r) =
      db.filter (fun r => !touchedRec destId items r) ∧
    ((postReconcile destId items db).2).filter (fun r => !touchedRec destId items r) =
      db.filter (fun r => !touchedRec destId items r) ∧
    (∀ (p praw : Str) (rest : List RItem) (db0 : DB),
      preReconcile destId ((none, p, praw) :: rest) db0 =
        preReconcile destId rest db0 ∧
      postReconcile destId ((none, p, praw) :: rest) db0 =
        postReconcile destId rest db0) := by
  have hq : ∀ c p2 praw, (some c, p2, praw) ∈ items →
      ∀ r, clMatches c.id destId r = true →
        (!touchedRec destId items r) = false := by
    intro c p2 praw hm r hr
    rw [clMatches, Bool.and_eq_true] at hr
    obtain ⟨hc, hl⟩ := hr
    have hid : c.id ∈ itemCompIds items :=
      List.mem_filterMap.mpr ⟨(some c, p2, praw), hm, rfl⟩
    have hcontains : (itemCompIds items).contains r.componentId = true := by
      rw [eq_of_beq hc]
      exact List.elem_eq_true_of_mem hid
    have htouched : touchedRec destId items r = true := by
      unfold touchedRec
      rw [hl, hcontains]
      rfl
    simp [htouched]
  refine ⟨preReconcile_frame destId _ items db hq,
    postReconcile_frame destId _ items db hq, ?_⟩
  intro p praw rest db0
  exact ⟨rfl, rfl⟩

def Event.isSetStatus : Event → Bool
  | .setStatus _ => true
  | _ => false

def Event.isDeletePre : Event → Bool
  | .deletePre _ _ => true
  | _ => false

def Event.isDeletePost : Event → Bool
  | .deletePost _ _ => true
  | _ => false

def Event.isCreateCL : Event → Bool
  | .createCL _ _ _ => true
  | _ => false

def Event.isSubmit : Event → Bool
  | .submit _ => true
  | _ => false

/-- Every event emitted by the stale-destination cleanup pass is a
pre-pass delete. -/
theorem preReconcile_events (destId : Str) :
    ∀ (items : List RItem) (db : DB) (e : Event),
      e ∈ (preReconcile destId items db).1 → e.isDeletePre = true := by
  intro items
  induction items with
  | nil => intro db e h; simp [preReconcile] at h
  | cons it rest ih =>
    intro db e h
    obtain ⟨copt, p2, praw⟩ := it
    cases copt with
    | none => exact ih db e h
    | some c =>
      cases hf : db.find? (clMatches c.id destId) with
      | some r =>
        simp only [preReconcile, hf] at h
        rw [List.mem_cons] at h
        rcases h with rfl | h
        · rfl
        · exact ih _ e h
      | none =>
        simp only [preReconcile, hf] at h
        exact ih db e h

/-- Every event emitted by the post-transfer pass is a post-pass delete
or a record creation. -/
theorem postReconcile_events (destId : Str) :
    ∀ (items : List RItem) (db : DB) (e : Event),
      e ∈ (postReconcile destId items db).1 →
        e.isDeletePost = true ∨ e.isCreateCL = true := by
  intro items
  induction items with
  | nil => intro db e h; simp [postReconcile] at h
  | cons it rest ih =>
    intro db e h
    obtain ⟨copt, p2, praw⟩ := it
    cases copt with
    | none => exact ih db e h
    | some c =>
      cases hf : db.find? (clMatches c.id destId) with
      | some r =>
        simp only [postReconcile, hf] at h
        rw [List.mem_cons] at h
        rcases h with rfl | h
        · exact Or.inl rfl
        · rw [List.mem_cons] at h
          rcases h with rfl | h
          · exact Or.inr rfl
          · exact ih _ e h
      | none =>
        simp only [postReconcile, hf] at h
        rw [List.mem_cons] at h
        rcases h with rfl | h
        · exact Or.inr rfl
        · exact ih _ e h

/-- Shape of the trace from the submission point onward: the tracking
job creation and the accsyn submission, then only pre-pass deletes, then
one user message, then only post-pass deletes/creates, then the single
finalization write of a non-`running` status. -/
theorem runSubmit_shape (w : World) (v : Values) (dstLoc : Location)
    (items : List RItem) (db : DB) :
    ∃ preEvs wm postEvs jfs db2,
      runSubmit w v dstLoc items db =
        ⟨Event.createTrackingJob :: Event.submit (mkTasks v items) ::
          (preEvs ++ Event.webMessage wm :: (postEvs ++ [Event.setStatus jfs])),
          db2, jfs⟩ ∧
      (∀ e ∈ preEvs, e.isDeletePre = true) ∧
      (∀ e ∈ postEvs, e.isDeletePost = true ∨ e.isCreateCL = true) ∧
      (jfs = doneS ∨ jfs = failedS) := by
  cases hst : w.accsynStatus with
  | done =>
    refine ⟨(preReconcile dstLoc.id items db).1,
      "Accsyn job finished successfully!".toList,
      (postReconcile dstLoc.id items (preReconcile dstLoc.id items db).2).1,
      doneS,
      (postReconcile dstLoc.id items (preReconcile dstLoc.id items db).2).2,
      ?_, ?_, ?_, Or.inl rfl⟩
    · simp [runSubmit, hst]
    · exact fun e he => preReconcile_events dstLoc.id items db e he
    · exact fun e he => postReconcile_events dstLoc.id items _ e he
  | aborted =>
    refine ⟨(preReconcile dstLoc.id items db).1,
      "[WARNING] Accsyn job were aborted.".toList,
      (postReconcile dstLoc.id items (preReconcile dstLoc.id items db).2).1,
      doneS,
      (postReconcile dstLoc.id items (preReconcile dstLoc.id items db).2).2,
      ?_, ?_, ?_, Or.inl rfl⟩
    · simp [runSubmit, hst]
    · exact fun e he => preReconcile_events dstLoc.id items db e he
    · exact fun e he => postReconcile_events dstLoc.id items _ e he
  | failed =>
    refine ⟨(preReconcile dstLoc.id items db).1,
      "[ERROR] Accsyn job FAILED! Check Accsyn for clues!".toList,
      [], failedS, (preReconcile dstLoc.id items db).2,
      ?_, ?_, ?_, Or.inr rfl⟩
    · simp [runSubmit, hst]
    · exact fun e he => preReconcile_events dstLoc.id items db e he
    · intro e he; cases he

/-- Unfolding: the run body once both location lookups succeed. -/
theorem run_eq_harvested (w : World) (v : Values) (ents : List SelectionItem)
    (db : DB) (l1 dstLoc : Location)
    (hs : w.findLocation v.source_location = some l1)
    (hd : w.findLocation v.destination_location = some dstLoc) :
    run w v ents db = runHarvested w v dstLoc (harvest w ents) db := by
  unfold run
  rw [hs, hd]

/-- Unfolding: a failed source- or destination-location lookup crashes
the run. -/
theorem run_eq_crash (w : World) (v : Values) (ents : List SelectionItem)
    (db : DB)
    (h : w.findLocation v.source_location = none ∨
      w.findLocation v.destination_location = none) :
    run w v ents db = earlyFailure crashedMsg db := by
  unfold run
  rcases h with h | h
  · rw [h]
  · rw [h]
    cases w.findLocation v.source_location <;> rfl

/-- Unfolding: a failed project lookup crashes the run body. -/
theorem runHarvested_proj_none (w : World) (v : Values) (dstLoc : Location)
    (c0 : Component) (cs : List Component) (pid : Option Str) (db : DB)
    (hp : w.findProject (pid.getD c0.projectId) = none) :
    runHarvested w v dstLoc (c0 :: cs, pid) db = earlyFailure crashedMsg db := by
  simp only [runHarvested, hp]

/-- Unfolding: an empty resolved-item set fails the run body before
submission. -/
theorem runHarvested_items_nil (w : World) (v : Values) (dstLoc : Location)
    (c0 : Component) (cs : List Component) (pid : Option Str) (db : DB)
    (projName : Str)
    (hp : w.findProject (pid.getD c0.projectId) = some projName)
    (hitems : evalPaths excludedLocations projName (c0 :: cs) ++
      additionalItems projName v.additional_files = []) :
    runHarvested w v dstLoc (c0 :: cs, pid) db = earlyFailure noItemsMsg db := by
  simp only [runHarvested, hp, hitems]

/-- Unfolding: a non-empty resolved-item set reaches the submission
phase. -/
theorem runHarvested_items_cons (w : World) (v : Values) (dstLoc : Location)
    (c0 : Component) (cs : List Component) (pid : Option Str) (db : DB)
    (projName : Str) (it : RItem) (its : List RItem)
    (hp : w.findProject (pid.getD c0.projectId) = some projName)
    (hitems : evalPaths excludedLocations projName (c0 :: cs) ++
      additionalItems projName v.additional_files = it :: its) :
    runHarvested w v dstLoc (c0 :: cs, pid) db = runSubmit w v dstLoc (it :: its) db := by
  simp only [runHarvested, hp, hitems]

/-- Every run is either an early failure (crash, empty harvest, empty
item set) with the three-event trace and an untouched table, or reaches
the submission phase. -/
theorem run_shape (w : World) (v : Values) (ents : List SelectionItem) (db : DB) :
    (∃ m, run w v ents db = earlyFailure m db) ∨
    (∃ dstLoc items, run w v ents db = runSubmit w v dstLoc items db) := by
  cases hs : w.findLocation v.source_location with
  | none => exact Or.inl ⟨crashedMsg, run_eq_crash w v ents db (Or.inl hs)⟩
  | some l1 =>
    cases hd : w.findLocation v.destination_location with
    | none => exact Or.inl ⟨crashedMsg, run_eq_crash w v ents db (Or.inr hd)⟩
    | some dstLoc =>
      have hrun := run_eq_harvested w v ents db l1 dstLoc hs hd
      rcases hh : harvest w ents with ⟨comps, pid⟩
      rw [hh] at hrun
      cases comps with
      | nil => exact Or.inl ⟨noComponentsMsg, hrun⟩
      | cons c0 cs =>
        cases hp : w.findProject (pid.getD c0.projectId) with
        | none =>
          exact Or.inl ⟨crashedMsg,
            hrun.trans (runHarvested_proj_none w v dstLoc c0 cs pid db hp)⟩
        | some projName =>
          cases hitems : evalPaths excludedLocations projName (c0 :: cs) ++
              additionalItems projName v.additional_files with
          | nil =>
            exact Or.inl ⟨noItemsMsg,
              hrun.trans
                (runHarvested_items_nil w v dstLoc c0 cs pid db projName hp hitems)⟩
          | cons it its =>
            exact Or.inr ⟨dstLoc, it :: its,
              hrun.trans
                (runHarvested_items_cons w v dstLoc c0 cs pid db projName it its
                  hp hitems)⟩

theorem isSetStatus_false_of_pre (e : Event) (h : e.isDeletePre = true) :
    e.isSetStatus = false := by
  cases e <;> simp_all [Event.isDeletePre, Event.isSetStatus]

theorem isSetStatus_false_of_post (e : Event)
    (h : e.isDeletePost = true ∨ e.isCreateCL = true) :
    e.isSetStatus = false := by
  cases e <;> simp_all [Event.isDeletePost, Event.isCreateCL, Event.isSetStatus]

/-- C7: every worker invocation that creates a TrackingJobRecord writes
its terminal status exactly once — the trace always ends with the single
`setStatus` event, carrying the run's final status, which is `done` or
`failed` and never `running`.  This is the `finally` block of lines
520-523, reached from normal completion, every early `return` and the
top-level `except` handler alike. -/
theorem c7_finalization_exactly_once (w : World) (v : Values)
    (ents : List SelectionItem) (db : DB) :
    ∃ pre, (run w v ents db).trace =
        pre ++ [Event.setStatus (run w v ents db).finalStatus] ∧
      pre.countP Event.isSetStatus = 0 ∧
      ((run w v ents db).finalStatus = doneS ∨
        (run w v ents db).finalStatus = failedS) ∧
      (run w v ents db).finalStatus ≠ "running".toList := by
  rcases run_shape w v ents db with ⟨m, he⟩ | ⟨dstLoc, items, he⟩
  · rw [he]
    exact ⟨[Event.createTrackingJob, Event.webMessage m], rfl, rfl, Or.inr rfl,
      (by decide : failedS ≠ "running".toList)⟩
  · obtain ⟨preEvs, wm, postEvs, jfs, db2, heq, hpreAll, hpostAll, hjfs⟩ :=
      runSubmit_shape w v dstLoc items db
    rw [he, heq]
    refine ⟨Event.createTrackingJob :: Event.submit (mkTasks v items) ::
      (preEvs ++ Event.webMessage wm :: postEvs), by simp, ?_, hjfs, ?_⟩
    · have h1 : preEvs.countP Event.isSetStatus = 0 :=
        List.countP_eq_zero.mpr fun e he2 => by
          simp [isSetStatus_false_of_pre e (hpreAll e he2)]
      have h2 : postEvs.countP Event.isSetStatus = 0 :=
        List.countP_eq_zero.mpr fun e he2 => by
          simp [isSetStatus_false_of_post e (hpostAll e he2)]
      simp [List.countP_cons, List.countP_append, h1, h2, Event.isSetStatus]
    · rcases hjfs with rfl | rfl
      · exact (by decide : doneS ≠ "running".toList)
      · exact (by decide : failedS ≠ "running".toList)

theorem harvestAux_congr (w w2 : World)
    (hq : w2.queryComponents = w.queryComponents) :
    ∀ (es : List SelectionItem) (acc : List Component × Option Str),
      harvestAux w2 es acc = harvestAux w es acc := by
  intro es
  induction es with
  | nil => intro acc; rfl
  | cons e t ih => intro acc; simp only [harvestAux, hq, ih]

theorem harvest_congr (w w2 : World)
    (hq : w2.queryComponents = w.queryComponents) (es : List SelectionItem) :
    harvest w2 es = harvest w es :=
  harvestAux_congr w w2 hq es ([], none)

theorem submit_not_mem_earlyFailure (m : Str) (db : DB) (ts : List (Str × Str)) :
    Event.submit ts ∉ (earlyFailure m db).trace := by
  simp [earlyFailure]

/-- Two worlds differing only in the transfer job's terminal status take
the same branch of the run: either both fail early (before submission,
with identical outcomes), or both reach the submission phase with the
same destination location and item set. -/
theorem run_parallel (w w2 : World) (v : Values) (ents : List SelectionItem)
    (db : DB)
    (hq : w2.queryComponents = w.queryComponents)
    (hf : w2.findLocation = w.findLocation)
    (hp : w2.findProject = w.findProject) :
    (run w2 v ents db = run w v ents db ∧
      ∀ ts, Event.submit ts ∉ (run w v ents db).trace) ∨
    (∃ dstLoc items, run w v ents db = runSubmit w v dstLoc items db ∧
      run w2 v ents db = runSubmit w2 v dstLoc items db) := by
  cases hs : w.findLocation v.source_location with
  | none =>
    have h1 := run_eq_crash w v ents db (Or.inl hs)
    have h2 := run_eq_crash w2 v ents db (Or.inl (by rw [hf]; exact hs))
    exact Or.inl ⟨h2.trans h1.symm,
      fun ts hts => submit_not_mem_earlyFailure _ _ ts (h1 ▸ hts)⟩
  | some l1 =>
    cases hd : w.findLocation v.destination_location with
    | none =>
      have h1 := run_eq_crash w v ents db (Or.inr hd)
      have h2 := run_eq_crash w2 v ents db (Or.inr (by rw [hf]; exact hd))
      exact Or.inl ⟨h2.trans h1.symm,
        fun ts hts => submit_not_mem_earlyFailure _ _ ts (h1 ▸ hts)⟩
    | some dstLoc =>
      have h1 := run_eq_harvested w v ents db l1 dstLoc hs hd
      have h2 := run_eq_harvested w2 v ents db l1 dstLoc
        (by rw [hf]; exact hs) (by rw [hf]; exact hd)
      rw [harvest_congr w w2 hq ents] at h2
      rcases hh : harvest w ents with ⟨comps, pid⟩
      rw [hh] at h1 h2
      cases comps with
      | nil =>
        have e1 : runHarvested w v dstLoc ([], pid) db =
            earlyFailure noComponentsMsg db := rfl
        have e2 : runHarvested w2 v dstLoc ([], pid) db =
            earlyFailure noComponentsMsg db := rfl
        exact Or.inl ⟨(h2.trans e2).trans (h1.trans e1).symm,
          fun ts hts =>
            submit_not_mem_earlyFailure _ _ ts ((h1.trans e1) ▸ hts)⟩
      | cons c0 cs =>
        cases hpj : w.findProject (pid.getD c0.projectId) with
        | none =>
          have e1 := runHarvested_proj_none w v dstLoc c0 cs pid db hpj
          have e2 := runHarvested_proj_none w2 v dstLoc c0 cs pid db
            (by rw [hp]; exact hpj)
          exact Or.inl ⟨(h2.trans e2).trans (h1.trans e1).symm,
            fun ts hts =>
              submit_not_mem_earlyFailure _ _ ts ((h1.trans e1) ▸ hts)⟩
        | some projName =>
          cases hitems : evalPaths excludedLocations projName (c0 :: cs) ++
              additionalItems projName v.additional_files with
          | nil =>
            have e1 := runHarvested_items_nil w v dstLoc c0 cs pid db projName
              hpj hitems
            have e2 := runHarvested_items_nil w2 v dstLoc c0 cs pid db projName
              (by rw [hp]; exact hpj) hitems
            exact Or.inl ⟨(h2.trans e2).trans (h1.trans e1).symm,
              fun ts hts =>
                submit_not_mem_earlyFailure _ _ ts ((h1.trans e1) ▸ hts)⟩
          | cons it its =>
            have e1 := runHarvested_items_cons w v dstLoc c0 cs pid db projName
              it its hpj hitems
            have e2 := runHarvested_items_cons w2 v dstLoc c0 cs pid db projName
              it its (by rw [hp]; exact hpj) hitems
            exact Or.inr ⟨dstLoc, it :: its, h1.trans e1, h2.trans e2⟩

theorem mem_of_idx {α : Type} (l : List α) (n : Nat) (a : α)
    (h : l[n]? = some a) : a ∈ l := by
  obtain ⟨hn, rfl⟩ := List.getElem?_eq_some.mp h
  exact List.getElem_mem hn

/-- C1 (amended): every stale-destination deletion of the cleanup pass
happens after the transfer-engine job has been created — the submission
event sits at position 1 of the trace, strictly before any pre-pass
deletion — and strictly before any destination-record creation of the
post-transfer pass. -/
theorem c1_cleanup_follows_submission (w : World) (v : Values)
    (ents : List SelectionItem) (db : DB) (j : Nat) (c l : Str)
    (h : (run w v ents db).trace[j]? = some (Event.deletePre c l)) :
    (∃ ts, (run w v ents db).trace[1]? = some (Event.submit ts) ∧ 1 < j) ∧
    (∀ k c2 l2 r2,
      (run w v ents db).trace[k]? = some (Event.createCL c2 l2 r2) → j < k) := by
  rcases run_shape w v ents db with ⟨m, he⟩ | ⟨dstLoc, items, he⟩
  · rw [he] at h
    have hmem := mem_of_idx _ _ _ h
    simp [earlyFailure] at hmem
  · obtain ⟨preEvs, wm, postEvs, jfs, db2, heq, hpreAll, hpostAll, hjfs⟩ :=
      runSubmit_shape w v dstLoc items db
    have htr : (run w v ents db).trace =
        Event.createTrackingJob :: Event.submit (mkTasks v items) ::
          (preEvs ++ Event.webMessage wm :: (postEvs ++ [Event.setStatus jfs])) := by
      rw [he, heq]
    simp only [htr] at h ⊢
    cases j with
    | zero => simp at h
    | succ j1 =>
      cases j1 with
      | zero => simp at h
      | succ n =>
        have h3 : (preEvs ++
            Event.webMessage wm :: (postEvs ++ [Event.setStatus jfs]))[n]? =
            some (Event.deletePre c l) := by simpa using h
        have hn : n < preEvs.length := by
          by_contra hge
          push_neg at hge
          rw [List.getElem?_append_right hge] at h3
          have hmem := mem_of_idx _ _ _ h3
          rw [List.mem_cons] at hmem
          rcases hmem with habs | hmem
          · exact absurd habs (by simp)
          · rw [List.mem_append] at hmem
            rcases hmem with hmem | hmem
            · have := hpostAll _ hmem
              simp [Event.isDeletePost, Event.isCreateCL] at this
            · simp at hmem
        refine ⟨⟨mkTasks v items, by simp, by omega⟩, ?_⟩
        intro k c2 l2 r2 hk
        cases k with
        | zero => simp at hk
        | succ k1 =>
          cases k1 with
          | zero => simp at hk
          | succ m2 =>
            have hk3 : (preEvs ++
                Event.webMessage wm :: (postEvs ++ [Event.setStatus jfs]))[m2]? =
                some (Event.createCL c2 l2 r2) := by simpa using hk
            have hm : preEvs.length ≤ m2 := by
              by_contra hlt
              push_neg at hlt
              rw [List.getElem?_append_left hlt] at hk3
              have hmem := mem_of_idx _ _ _ hk3
              have := hpreAll _ hmem
              simp [Event.isDeletePre] at this
            omega

/-- C1 counterexample: the claim as stated — every pre-pass deletion
precedes the engine-job creation — is false: in a concrete run the
submission is at position 1 of the trace and a stale-destination
deletion at position 2. -/
theorem c1_counterexample :
    ¬ (∀ (i j : Nat) (ts : List (Str × Str)) (c l : Str),
        (run w1 v1 sel1 db1).trace[i]? = some (Event.submit ts) →
        (run w1 v1 sel1 db1).trace[j]? = some (Event.deletePre c l) →
        j < i) := by
  intro hclaim
  have h := hclaim 1 2
    [("site=studio-a:show01/render.exr".toList, "site=studio-b".toList)]
    "cX".toList "idB".toList (by decide) (by decide)
  omega

/-- Witness for the amended C1 at the concrete run: the deletion at
position 2 is preceded by the submission at position 1 and precedes
every record creation. -/
theorem c1_cleanup_follows_submission_witness :
    (∃ ts, (run w1 v1 sel1 db1).trace[1]? = some (Event.submit ts) ∧ 1 < 2) ∧
    (∀ k c2 l2 r2,
      (run w1 v1 sel1 db1).trace[k]? = some (Event.createCL c2 l2 r2) → 2 < k) :=
  c1_cleanup_follows_submission w1 v1 sel1 db1 2 "cX".toList "idB".toList
    (by decide)

/-- C2 (amended): when the polled terminal status is `aborted`, a
warning is reported to the user and the TrackingJobRecord is finalized
as `done`, not `failed` — but the post-submission reconciliation is NOT
skipped: since `job_final_status` is still `'done'` at line 483, the
pass runs exactly as in the `done` case, so the final
`ComponentLocation` table equals that of an identical run whose job
finished `done`. -/
theorem c2_aborted_still_reconciles (w w2 : World) (v : Values)
    (ents : List SelectionItem) (db : DB)
    (hq : w2.queryComponents = w.queryComponents)
    (hf : w2.findLocation = w.findLocation)
    (hp : w2.findProject = w.findProject)
    (hs : w.accsynStatus = TermStatus.aborted)
    (hs2 : w2.accsynStatus = TermStatus.done)
    (hreach : ∃ ts, Event.submit ts ∈ (run w v ents db).trace) :
    (run w v ents db).finalStatus = doneS ∧
    Event.webMessage "[WARNING] Accsyn job were aborted.".toList ∈
      (run w v ents db).trace ∧
    (run w v ents db).db = (run w2 v ents db).db := by
  rcases run_parallel w w2 v ents db hq hf hp with ⟨heq2, hns⟩ | ⟨dstLoc, items, he, he2⟩
  · obtain ⟨ts, hts⟩ := hreach
    exact absurd hts (hns ts)
  · rw [he, he2]
    simp [runSubmit, hs, hs2]

/-- Witness for the amended C2: the concrete aborted run finishes
`done`, reports the warning and leaves the same table as the `done`
run. -/
theorem c2_aborted_still_reconciles_witness :
    (run w2 v1 sel1 db1).finalStatus = doneS ∧
    Event.webMessage "[WARNING] Accsyn job were aborted.".toList ∈
      (run w2 v1 sel1 db1).trace ∧
    (run w2 v1 sel1 db1).db = (run w1 v1 sel1 db1).db :=
  c2_aborted_still_reconciles w2 w1 v1 sel1 db1 rfl rfl rfl rfl rfl
    ⟨[("site=studio-a:show01/render.exr".toList, "site=studio-b".toList)],
      by decide⟩

/-- C2 counterexample: the claim as stated — on `aborted` the
post-submission reconciliation is skipped entirely and no
`ComponentLocation` is created at the destination — is false: in a
concrete aborted run a destination record is created (trace position 4),
right after the warning (position 3). -/
theorem c2_counterexample :
    (run w2 v1 sel1 db1).trace[3]? =
      some (Event.webMessage "[WARNING] Accsyn job were aborted.".toList) ∧
    (run w2 v1 sel1 db1).trace[4]? =
      some (Event.createCL "cX".toList "idB".toList
        "share/show01/render.exr".toList) ∧
    (run w2 v1 sel1 db1).finalStatus = doneS ∧
    (run w2 v1 sel1 db1).db =
      [⟨"cX".toList, "idB".toList, "share/show01/render.exr".toList⟩] := by
  refine ⟨by decide, by decide, by decide, by decide⟩

/-- C6: a run whose selection expands to zero components terminates with
the tracking job finalized `failed`, with exactly the three early-failure
events — job creation, the error notification, the status write — so no
job is submitted to the transfer engine and no later stage (path
resolution, job building, reconciliation, monitoring) leaves any effect;
the `ComponentLocation` table is untouched. -/
theorem c6_empty_harvest_fails_early (w : World) (v : Values)
    (ents : List SelectionItem) (db : DB) (l1 l2 : Location)
    (hs : w.findLocation v.source_location = some l1)
    (hd : w.findLocation v.destination_location = some l2)
    (hh : (harvest w ents).1 = []) :
    (run w v ents db).finalStatus = failedS ∧
    (run w v ents db).trace =
      [Event.createTrackingJob, Event.webMessage noComponentsMsg,
        Event.setStatus failedS] ∧
    (run w v ents db).db = db ∧
    (∀ ts, Event.submit ts ∉ (run w v ents db).trace) := by
  have hrun := run_eq_harvested w v ents db l1 l2 hs hd
  rcases hhp : harvest w ents with ⟨comps, pid⟩
  rw [hhp] at hrun hh
  simp only at hh
  subst hh
  have heq : run w v ents db = earlyFailure noComponentsMsg db := hrun
  refine ⟨by rw [heq]; rfl, by rw [heq]; rfl, by rw [heq]; rfl, ?_⟩
  exact fun ts hts => submit_not_mem_earlyFailure _ _ ts (heq ▸ hts)

/-- Witness for C6: a concrete world whose entity queries return no
components. -/
theorem c6_empty_harvest_fails_early_witness :
    (run w6 v1 sel1 []).finalStatus = failedS ∧
    (run w6 v1 sel1 []).trace =
      [Event.createTrackingJob, Event.webMessage noComponentsMsg,
        Event.setStatus failedS] ∧
    (run w6 v1 sel1 []).db = [] ∧
    (∀ ts, Event.submit ts ∉ (run w6 v1 sel1 []).trace) :=
  c6_empty_harvest_fails_early w6 v1 sel1 [] locA locB rfl rfl rfl

theorem harvestAux_fst (w : World) :
    ∀ (es : List SelectionItem) (acc : List Component × Option Str),
      (harvestAux w es acc).1 = acc.1 ++ (es.map w.queryComponents).flatten := by
  intro es
  induction es with
  | nil => intro acc; simp [harvestAux]
  | cons e t ih => intro acc; simp [harvestAux, ih, List.append_assoc]

/-- C8 counterexample: the claim as stated — no component appears more
than once in the harvested collection, hence at most one transfer task
per component — is false: with two selection items whose expansion
queries both reach `compX`, the harvested collection holds `compX`
twice and path resolution yields two items (hence two transfer tasks). -/
theorem c8_counterexample :
    (harvest w1 [se1, se2]).1.count compX = 2 ∧
    (evalPaths excludedLocations "show01".toList (harvest w1 [se1, se2]).1).length
      = 2 := by
  refine ⟨by decide, by decide⟩

/-- C8 (amended): the Entity Resolver's output is a flat ordered list,
the concatenation of each selection item's expansion results, with no
deduplication — a component reached by several selection items appears
once per reaching item — and each resolvable appearance yields exactly
one transfer task (one item per resolvable occurrence, one task per
item). -/
theorem c8_no_deduplication (w : World) (ents1 ents2 : List SelectionItem)
    (excl : List Str) (projName : Str) (cs : List Component) (v : Values)
    (items : List RItem) :
    (harvest w (ents1 ++ ents2)).1 = (harvest w ents1).1 ++ (harvest w ents2).1 ∧
    (evalPaths excl projName cs).length =
      cs.countP (fun c => (resolveComponent excl projName c).isSome) ∧
    (mkTasks v items).length = items.length := by
  refine ⟨?_, ?_, ?_⟩
  · simp [harvest, harvestAux_fst, List.map_append, List.flatten_append]
  · induction cs with
    | nil => rfl
    | cons c t ih =>
      cases hr : resolveComponent excl projName c with
      | some pp => simp [evalPaths, hr, List.countP_cons, ih]
      | none => simp [evalPaths, hr, List.countP_cons, ih]
  · simp [mkTasks]
